import Mathlib

set_option autoImplicit false

/-
Verification development for the cloudflare-r2-file-manager server
(src/index.js).  The Express route handlers are shallowly embedded as
pure functions over a model of the S3-compatible bucket; each storage
call made through the SDK client is modelled explicitly, including a
fault schedule that lets a call throw, so that the catch blocks of the
handlers can be reasoned about.
-/

namespace R2FM

/-- JavaScript strings (object keys, bodies, request fields) are modelled
as lists of characters. -/
abbrev Str := List Char

/-- Embeds a Lean string literal into the model of JS strings. -/
def str (s : String) : Str := s.data

/-- Decides whether `p` is a leading segment of `s` (the prefix test used
to model S3 `Prefix`-filtered listings over the bucket's keys). -/
def lpre : Str → Str → Bool
  | [], _ => true
  | _ :: _, [] => false
  | a :: p, b :: s => if a = b then lpre p s else false

/-- Models JavaScript `s.replace(pat, rep)` with a string pattern: only
the first occurrence of `pat` in `s` is replaced (`$`-substitution
patterns in `rep` are not modelled; the handlers never produce them from
keys).  This is the key-substitution used by `/duplicate-folder` and
`/rename-folder`. -/
def replFirst (pat rep : Str) : Str → Str
  | [] => if lpre pat [] then rep else []
  | c :: cs => if lpre pat (c :: cs) then rep ++ (c :: cs).drop pat.length else c :: replFirst pat rep cs

/-- `item.Key.replace(sourceFolder, targetFolder)` from src/index.js
lines 226 and 259. -/
def newKeyOf (sourceFolder targetFolder key : Str) : Str :=
  replFirst sourceFolder targetFolder key

/-- A stored object of the bucket: its key and its body (the bytes,
modelled as a character list). -/
structure Obj where
  key : Str
  body : Str
deriving DecidableEq

/-- The S3-compatible bucket, modelled as the list of its objects in
storage order; the store keeps at most one object per key
(`putObject` overwrites in place). -/
abbrev Bucket := List Obj

/-- The keys currently present in the bucket. -/
def keysOf (b : Bucket) : List Str := b.map Obj.key

/-- `PutObject`: overwrite the body if the key exists, append otherwise. -/
def putObject : Bucket → Str → Str → Bucket
  | [], k, v => [⟨k, v⟩]
  | o :: rest, k, v => if o.key = k then ⟨k, v⟩ :: rest else o :: putObject rest k v

/-- `GetObject` as a lookup: the body stored at the key, if present. -/
def getObject : Bucket → Str → Option Str
  | [], _ => none
  | o :: rest, k => if o.key = k then some o.body else getObject rest k

/-- `DeleteObject`: removes the object at the key (a no-op when absent,
as in S3). -/
def delObj (b : Bucket) (k : Str) : Bucket :=
  b.filter (fun o => decide (o.key ≠ k))

/-- `DeleteObjects`: bulk removal of a list of keys. -/
def delObjs (b : Bucket) (ks : List Str) : Bucket :=
  b.filter (fun o => decide (o.key ∉ ks))

/-- `ListObjectsV2` with a `Prefix` and no delimiter: the objects whose
key extends the prefix, in storage order (a single page; the code never
paginates). -/
def listObjects (b : Bucket) (pfx : Str) : List Obj :=
  b.filter (fun o => lpre pfx o.key)

/-- The common prefix (folder) an S3 delimiter-listing reports for a key
matching `pfx`: the key's segment up to and including the first `/`
after the prefix, if any. -/
def commonPrefixOf (pfx key : Str) : Option Str :=
  let rest := key.drop pfx.length
  if rest.contains '/' then
    some (pfx ++ rest.takeWhile (fun c => decide (c ≠ '/')) ++ [ '/' ])
  else none

/-- `ListObjectsV2` with `Delimiter: "/"`: keys with further `/`
segments are rolled up into `CommonPrefixes` and removed from
`Contents`. -/
def listDelim (b : Bucket) (pfx : Str) : List Obj × List Str :=
  let matching := b.filter (fun o => lpre pfx o.key)
  let contents := matching.filter (fun o => !((o.key.drop pfx.length).contains '/'))
  let commons := (matching.filterMap (fun o => commonPrefixOf pfx o.key)).dedup
  (contents, commons)

/-- An error thrown by a storage call, as the handlers observe it:
`error.name` (inspected by the delete-file route) and `error.message`
(reported in the 500 responses). -/
structure Fault where
  name : String
  message : String
deriving DecidableEq

/-- The running state of a request: the bucket, the schedule of injected
outcomes for upcoming storage calls (`none` = the call succeeds;
an exhausted schedule means all further calls succeed), and the number
of storage calls issued so far. -/
structure St where
  bucket : Bucket
  faults : List (Option Fault)
  calls : Nat
deriving DecidableEq

/-- Consume the schedule entry for the next storage call. -/
def popFault (st : St) : Option Fault × St :=
  match st.faults with
  | [] => (none, { st with calls := st.calls + 1 })
  | f :: rest => (f, { bucket := st.bucket, faults := rest, calls := st.calls + 1 })

/-- `s3.send(new PutObjectCommand ...)`. -/
def sendPut (st : St) (k v : Str) : Except (Fault × St) St :=
  match popFault st with
  | (some e, st1) => .error (e, st1)
  | (none, st1) => .ok { st1 with bucket := putObject st1.bucket k v }

/-- `s3.send(new DeleteObjectCommand ...)`. -/
def sendDelete (st : St) (k : Str) : Except (Fault × St) St :=
  match popFault st with
  | (some e, st1) => .error (e, st1)
  | (none, st1) => .ok { st1 with bucket := delObj st1.bucket k }

/-- `s3.send(new DeleteObjectsCommand ...)`. -/
def sendDeleteObjects (st : St) (ks : List Str) : Except (Fault × St) St :=
  match popFault st with
  | (some e, st1) => .error (e, st1)
  | (none, st1) => .ok { st1 with bucket := delObjs st1.bucket ks }

/-- `s3.send(new GetObjectCommand ...)` followed by `streamToString`:
yields the stored body; a missing key makes the SDK throw `NoSuchKey`. -/
def sendGet (st : St) (k : Str) : Except (Fault × St) (Str × St) :=
  match popFault st with
  | (some e, st1) => .error (e, st1)
  | (none, st1) =>
    match getObject st1.bucket k with
    | some body => .ok (body, st1)
    | none => .error (⟨"NoSuchKey", "The specified key does not exist."⟩, st1)

/-- `s3.send(new HeadObjectCommand ...)`: a missing key makes the SDK
throw an error named `NotFound`. -/
def sendHead (st : St) (k : Str) : Except (Fault × St) St :=
  match popFault st with
  | (some e, st1) => .error (e, st1)
  | (none, st1) =>
    if (getObject st1.bucket k).isSome then .ok st1
    else .error (⟨"NotFound", "NotFound"⟩, st1)

/-- `s3.send(new CopyObjectCommand ...)`: reads the body at the copy
source and writes it at the destination key; a missing source throws
`NoSuchKey`. -/
def sendCopy (st : St) (src dst : Str) : Except (Fault × St) St :=
  match popFault st with
  | (some e, st1) => .error (e, st1)
  | (none, st1) =>
    match getObject st1.bucket src with
    | some body => .ok { st1 with bucket := putObject st1.bucket dst body }
    | none => .error (⟨"NoSuchKey", "The specified key does not exist."⟩, st1)

/-- `s3.send(new ListObjectsV2Command ...)` without delimiter. -/
def sendList (st : St) (pfx : Str) : Except (Fault × St) (List Obj × St) :=
  match popFault st with
  | (some e, st1) => .error (e, st1)
  | (none, st1) => .ok (listObjects st1.bucket pfx, st1)

/-- `s3.send(new ListObjectsV2Command ...)` with `Delimiter: "/"`. -/
def sendListDelim (st : St) (pfx : Str) : Except (Fault × St) ((List Obj × List Str) × St) :=
  match popFault st with
  | (some e, st1) => .error (e, st1)
  | (none, st1) => .ok (listDelim st1.bucket pfx, st1)

/-- The template literal `` `${folder}/${fileName}` `` used as object key. -/
def joinKey (folder fileName : Str) : Str := folder ++ [ '/' ] ++ fileName

/-- The template literal `` `${folder}/` `` used as listing prefix. -/
def folderPfx (folder : Str) : Str := folder ++ [ '/' ]

/-- The HTTP responses the handlers send (status code plus JSON payload
shape: `{message}`, `{error}`, upload result, listing results, URLs). -/
inductive Resp where
  | msg (status : Nat) (message : String)
  | fail (status : Nat) (error : String)
  | okUpload (status : Nat) (message : String) (fileNames : List Str)
  | okList (status : Nat) (files : List Str) (folders : List Str)
  | okFolders (status : Nat) (folders : List Str)
  | okUrls (status : Nat) (urls : List (Str × Str))
deriving DecidableEq

/-- The `/read-file` response: 200 with the parsed JSON value, or an
error payload. -/
inductive ReadResp (J : Type) where
  | ok (v : J)
  | fail (status : Nat) (error : String)
deriving DecidableEq

/-- Route 1, `POST /create-file` (src/index.js lines 43-60): put the
JSON-stringified content at `` `${folder}/${fileName}` ``.  `stringify`
stands for the `JSON.stringify` builtin. -/
def createFile {J : Type} (stringify : J → Str) (st : St) (folder fileName : Str) (content : J) : Resp × St :=
  match sendPut st (joinKey folder fileName) (stringify content) with
  | .ok st1 => (.msg 201 "File created successfully", st1)
  | .error (e, st1) => (.fail 500 e.message, st1)

/-- Route 2, `DELETE /delete-file` (src/index.js lines 63-119):
`fileName = "*"` lists the folder prefix and bulk-deletes every listed
key (404 when the listing is empty); otherwise a head-check (an error
named `NotFound` becomes a 404, anything else is rethrown to the outer
catch) followed by a single delete. -/
def deleteFile (st : St) (folder fileName : Str) : Resp × St :=
  if fileName = str "*" then
    match sendList st (folderPfx folder) with
    | .error (e, st1) => (.fail 500 e.message, st1)
    | .ok (contents, st1) =>
      if contents.length = 0 then (.msg 404 "No files found in the folder", st1)
      else
        match sendDeleteObjects st1 (contents.map Obj.key) with
        | .error (e, st2) => (.fail 500 e.message, st2)
        | .ok st2 => (.msg 200 ("Deleted " ++ toString contents.length ++ " files successfully"), st2)
  else
    match sendHead st (joinKey folder fileName) with
    | .error (e, st1) =>
      if e.name = "NotFound" then (.fail 404 "File not found", st1)
      else (.fail 500 e.message, st1)
    | .ok st1 =>
      match sendDelete st1 (joinKey folder fileName) with
      | .error (e, st2) => (.fail 500 e.message, st2)
      | .ok st2 => (.msg 200 "File deleted successfully", st2)

/-- Route 3, `PUT /update-file` (src/index.js lines 122-139): overwrite
the JSON object. -/
def updateFile {J : Type} (stringify : J → Str) (st : St) (folder fileName : Str) (content : J) : Resp × St :=
  match sendPut st (joinKey folder fileName) (stringify content) with
  | .ok st1 => (.msg 200 "File updated successfully", st1)
  | .error (e, st1) => (.fail 500 e.message, st1)

/-- Route 4, `GET /read-file` (src/index.js lines 142-158): get the
object, convert the stream to a string and `JSON.parse` it; a parse
failure throws into the catch with the `SyntaxError` message.
`parseJson` stands for the `JSON.parse` builtin. -/
def readFile {J : Type} (parseJson : Str → Except String J) (st : St) (folder fileName : Str) : ReadResp J × St :=
  match sendGet st (joinKey folder fileName) with
  | .error (e, st1) => (.fail 500 e.message, st1)
  | .ok (content, st1) =>
    match parseJson content with
    | .ok v => (.ok v, st1)
    | .error m => (.fail 500 m, st1)

/-- The prefix `` folder ? `${folder}/` : "" `` of routes 5 and 10: a
missing (or empty, hence falsy) folder query degrades to the whole
bucket. -/
def folderQueryPfx : Option Str → Str
  | none => []
  | some f => if f = [] then [] else folderPfx f

/-- Route 5, `GET /list-files` (src/index.js lines 161-183): delimiter
listing under the folder prefix, reporting files and folders. -/
def listFiles (st : St) (folder : Option Str) : Resp × St :=
  match sendListDelim st (folderQueryPfx folder) with
  | .error (e, st1) => (.fail 500 e.message, st1)
  | .ok ((contents, commons), st1) => (.okList 200 (contents.map Obj.key) commons, st1)

/-- Route 6, `GET /list-folders` (src/index.js lines 186-201): delimiter
listing at the bucket root, reporting the common prefixes. -/
def listFolders (st : St) : Resp × St :=
  match sendListDelim st [] with
  | .error (e, st1) => (.fail 500 e.message, st1)
  | .ok ((_, commons), st1) => (.okFolders 200 commons, st1)

/-- The copy fan-out of `/duplicate-folder` (src/index.js lines
222-232): one `CopyObjectCommand` per listed object, to
`item.Key.replace(sourceFolder, targetFolder)`.  The `Promise.all` is
modelled by running the copies in listing order. -/
def copyLoop (sourceFolder targetFolder : Str) : St → List Obj → Except (Fault × St) St
  | st, [] => .ok st
  | st, item :: rest =>
    match sendCopy st item.key (newKeyOf sourceFolder targetFolder item.key) with
    | .error es => .error es
    | .ok st1 => copyLoop sourceFolder targetFolder st1 rest

/-- Route 7, `POST /duplicate-folder` (src/index.js lines 204-237): list
`` `${sourceFolder}/` ``, 404 when empty, else copy every object to its
substituted key. -/
def duplicateFolder (st : St) (sourceFolder targetFolder : Str) : Resp × St :=
  match sendList st (folderPfx sourceFolder) with
  | .error (e, st1) => (.fail 500 e.message, st1)
  | .ok (contents, st1) =>
    if contents.length = 0 then (.msg 404 "Source folder is empty or not found", st1)
    else
      match copyLoop sourceFolder targetFolder st1 contents with
      | .error (e, st2) => (.fail 500 e.message, st2)
      | .ok st2 => (.msg 201 "Folder duplicated successfully", st2)

/-- The copy-then-delete fan-out of `/rename-folder` (src/index.js lines
258-277).  The "copy" is `new PutObjectCommand({Bucket, CopySource,
Key: newKey})`: `PutObject` has no `CopySource` member (the field is
ignored) and no `Body` was given, so the call stores a zero-length
object at `newKey`; then the original is deleted.  The `Promise.all`
is modelled by running the pairs in listing order. -/
def renameLoop (sourceFolder targetFolder : Str) : St → List Obj → Except (Fault × St) St
  | st, [] => .ok st
  | st, item :: rest =>
    match sendPut st (newKeyOf sourceFolder targetFolder item.key) [] with
    | .error es => .error es
    | .ok st1 =>
      match sendDelete st1 item.key with
      | .error es => .error es
      | .ok st2 => renameLoop sourceFolder targetFolder st2 rest

/-- Route 8, `PUT /rename-folder` (src/index.js lines 240-284): list
`` `${sourceFolder}/` ``, 404 when empty, else copy-and-delete every
object. -/
def renameFolder (st : St) (sourceFolder targetFolder : Str) : Resp × St :=
  match sendList st (folderPfx sourceFolder) with
  | .error (e, st1) => (.fail 500 e.message, st1)
  | .ok (contents, st1) =>
    if contents.length = 0 then (.msg 404 "Source folder is empty or not found", st1)
    else
      match renameLoop sourceFolder targetFolder st1 contents with
      | .error (e, st2) => (.fail 500 e.message, st2)
      | .ok st2 => (.msg 200 "Folder renamed successfully", st2)

/-- A file of the multipart field `files`, as multer presents it. -/
structure UFile where
  originalname : Str
  buffer : Str
  mimetype : Str
deriving DecidableEq

/-- The put fan-out of `/upload-files` (src/index.js lines 311-321). -/
def uploadLoop (folder : Str) : St → List UFile → Except (Fault × St) St
  | st, [] => .ok st
  | st, f :: rest =>
    match sendPut st (joinKey folder f.originalname) f.buffer with
    | .error es => .error es
    | .ok st1 => uploadLoop folder st1 rest

/-- Route 9, `POST /upload-files` (src/index.js lines 287-332):
`upload.array("files", 50)` rejects more than 50 files with a 400
before the handler runs (multer `LIMIT_FILE_COUNT`); the handler then
400s on an empty file list (`folder` defaults to `"uploads"` when
absent/falsy) and otherwise puts every file at
`` `${folder}/${file.originalname}` ``. -/
def uploadFiles (st : St) (folderField : Str) (files : List UFile) : Resp × St :=
  if 50 < files.length then (.fail 400 "Too many files. Maximum 50 files allowed.", st)
  else
    let folder := if folderField = [] then str "uploads" else folderField
    if files.length = 0 then (.msg 400 "No files uploaded", st)
    else
      match uploadLoop folder st files with
      | .error (e, st1) => (.fail 500 e.message, st1)
      | .ok st1 => (.okUpload 201 "Files uploaded successfully" (files.map UFile.originalname), st1)

/-- `getSignedUrl`: an external collaborator that signs locally and
issues no storage call; modelled as a deterministic stand-in producing
a URL from the key (the optional `expires` query is threaded through
unmodelled). -/
def presign (key : Str) (expires : Option Str) : Str :=
  str "https://signed/" ++ key ++ (match expires with | none => [] | some e => str "?expires=" ++ e)

/-- Route 10, `GET /get-file-urls` (src/index.js lines 335-367): list
the prefix and return a presigned URL per listed key. -/
def getFileUrls (st : St) (folder : Option Str) (expires : Option Str) : Resp × St :=
  match sendList st (folderQueryPfx folder) with
  | .error (e, st1) => (.fail 500 e.message, st1)
  | .ok (contents, st1) =>
    (.okUrls 200 (contents.map (fun o => (o.key, presign o.key expires))), st1)

/-- The objects `/rename-folder` leaves at the substituted keys: one
zero-length object per source object (proof device describing the net
bucket effect of `renameLoop`). -/
def renamedObjs (sourceFolder targetFolder : Str) (R : List Obj) : List Obj :=
  R.map (fun o => ⟨newKeyOf sourceFolder targetFolder o.key, []⟩)

/-- The objects `/duplicate-folder` adds at the substituted keys: one
full copy per source object (proof device describing the net bucket
effect of `copyLoop`). -/
def copiedObjs (sourceFolder targetFolder : Str) (R : List Obj) : List Obj :=
  R.map (fun o => ⟨newKeyOf sourceFolder targetFolder o.key, o.body⟩)

/-- The net bucket effect of the `/upload-files` put fan-out (proof
device mirroring `uploadLoop`). -/
def uploadFold (folder : Str) : Bucket → List UFile → Bucket
  | B, [] => B
  | B, f :: rest => uploadFold folder (putObject B (joinKey folder f.originalname) f.buffer) rest

/- ------------------------------------------------------------------
   Theorems.  First the library about the string and bucket model,
   then the per-route loop characterisations, then the claims.
   ------------------------------------------------------------------ -/

theorem lpre_iff (p s : Str) : lpre p s = true ↔ ∃ r, s = p ++ r := by
  induction p generalizing s with
  | nil => simp [lpre]
  | cons a p ih =>
    cases s with
    | nil => simp [lpre]
    | cons b s =>
      constructor
      · intro h
        by_cases hab : a = b
        · subst hab
          simp [lpre] at h
          rcases (ih s).mp h with ⟨r, hr⟩
          exact ⟨r, by simp [hr]⟩
        · simp [lpre, hab] at h
      · rintro ⟨r, hr⟩
        obtain ⟨hb, hs⟩ : b = a ∧ s = p ++ r := by simpa using hr
        subst hb
        simp [lpre]
        exact (ih s).mpr ⟨r, hs⟩

theorem lpre_append (p r : Str) : lpre p (p ++ r) = true :=
  (lpre_iff p (p ++ r)).mpr ⟨r, rfl⟩

theorem lpre_trans {p q s : Str} (h1 : lpre p q = true) (h2 : lpre q s = true) :
    lpre p s = true := by
  rcases (lpre_iff p q).mp h1 with ⟨r1, hr1⟩
  rcases (lpre_iff q s).mp h2 with ⟨r2, hr2⟩
  exact (lpre_iff p s).mpr ⟨r1 ++ r2, by simp [hr2, hr1]⟩

theorem lpre_total (p q x : Str) (hp : lpre p x = true) (hq : lpre q x = true) :
    lpre p q = true ∨ lpre q p = true := by
  induction x generalizing p q with
  | nil =>
    cases p with
    | nil => exact Or.inl (by simp [lpre])
    | cons a p => simp [lpre] at hp
  | cons c x ih =>
    cases p with
    | nil => exact Or.inl (by simp [lpre])
    | cons a p =>
      cases q with
      | nil => exact Or.inr (by simp [lpre])
      | cons b q =>
        have ha : a = c := by
          by_cases h : a = c
          · exact h
          · simp [lpre, h] at hp
        have hb : b = c := by
          by_cases h : b = c
          · exact h
          · simp [lpre, h] at hq
        subst ha
        subst hb
        simp [lpre] at hp hq ⊢
        exact ih p q hp hq

theorem lpre_false_of (p q x : Str) (hqx : lpre q x = true)
    (h1 : lpre p q = false) (h2 : lpre q p = false) : lpre p x = false := by
  cases hx : lpre p x with
  | false => rfl
  | true =>
    exfalso
    rcases lpre_total p q x hx hqx with h | h
    · rw [h] at h1; simp at h1
    · rw [h] at h2; simp at h2

theorem eq_append_drop_of_lpre {p k : Str} (h : lpre p k = true) :
    k = p ++ k.drop p.length := by
  rcases (lpre_iff p k).mp h with ⟨r, rfl⟩
  rw [List.drop_left]

theorem replFirst_pref (pat rep : Str) {s : Str} (h : lpre pat s = true) :
    replFirst pat rep s = rep ++ s.drop pat.length := by
  cases s with
  | nil =>
    have hp : pat = [] := by
      rcases (lpre_iff pat []).mp h with ⟨r, hr⟩
      cases pat with
      | nil => rfl
      | cons a p => simp at hr
    subst hp
    simp [replFirst, lpre]
  | cons c cs => simp [replFirst, h]

theorem newKeyOf_pref (s t : Str) {k : Str} (h : lpre (folderPfx s) k = true) :
    newKeyOf s t k = folderPfx t ++ k.drop (folderPfx s).length := by
  have hs : lpre s k = true := lpre_trans (lpre_append s [ '/' ]) h
  rcases (lpre_iff (folderPfx s) k).mp h with ⟨r, hk⟩
  subst hk
  rw [newKeyOf, replFirst_pref s t hs, List.drop_left]
  have h2 : folderPfx s ++ r = s ++ ([ '/' ] ++ r) := by simp [folderPfx]
  rw [h2, List.drop_left]
  simp [folderPfx]

theorem lpre_newKeyOf (s t : Str) {k : Str} (h : lpre (folderPfx s) k = true) :
    lpre (folderPfx t) (newKeyOf s t k) = true := by
  rw [newKeyOf_pref s t h]
  exact lpre_append _ _

theorem newKeyOf_inj (s t : Str) {k1 k2 : Str}
    (h1 : lpre (folderPfx s) k1 = true) (h2 : lpre (folderPfx s) k2 = true)
    (he : newKeyOf s t k1 = newKeyOf s t k2) : k1 = k2 := by
  rw [newKeyOf_pref s t h1, newKeyOf_pref s t h2] at he
  have hd := List.append_cancel_left he
  calc k1 = folderPfx s ++ k1.drop (folderPfx s).length := eq_append_drop_of_lpre h1
    _ = folderPfx s ++ k2.drop (folderPfx s).length := by rw [hd]
    _ = k2 := (eq_append_drop_of_lpre h2).symm

theorem keysOf_cons (o : Obj) (B : Bucket) : keysOf (o :: B) = o.key :: keysOf B := rfl

theorem keysOf_append (X Y : Bucket) : keysOf (X ++ Y) = keysOf X ++ keysOf Y := by
  simp [keysOf]

theorem put_fresh {B : Bucket} {k : Str} (v : Str) (h : k ∉ keysOf B) :
    putObject B k v = B ++ [⟨k, v⟩] := by
  induction B with
  | nil => rfl
  | cons o rest ih =>
    rw [keysOf_cons, List.mem_cons, not_or] at h
    have hne : ¬ o.key = k := fun he => h.1 he.symm
    simp [putObject, hne, ih h.2]

theorem getObject_put_self (B : Bucket) (k v : Str) :
    getObject (putObject B k v) k = some v := by
  induction B with
  | nil => simp [putObject, getObject]
  | cons o rest ih =>
    by_cases h : o.key = k
    · simp [putObject, getObject, h]
    · simp [putObject, getObject, h, ih]

theorem getObject_put_other (B : Bucket) {k k' : Str} (v : Str) (h : k ≠ k') :
    getObject (putObject B k' v) k = getObject B k := by
  have h' : ¬ k' = k := fun he => h he.symm
  induction B with
  | nil => simp [putObject, getObject, h']
  | cons o rest ih =>
    by_cases ho : o.key = k'
    · simp [putObject, getObject, ho, h']
    · simp [putObject, getObject, ho, ih]

theorem getObject_eq_none_iff (B : Bucket) (k : Str) :
    getObject B k = none ↔ k ∉ keysOf B := by
  induction B with
  | nil => simp [getObject, keysOf]
  | cons o rest ih =>
    rw [keysOf_cons, List.mem_cons]
    by_cases h : o.key = k
    · simp [getObject, h]
    · have h' : ¬ k = o.key := fun he => h he.symm
      simp [getObject, h, ih, h']

theorem getObject_append_left {X : Bucket} {k v : Str} (Y : Bucket)
    (h : getObject X k = some v) : getObject (X ++ Y) k = some v := by
  induction X with
  | nil => simp [getObject] at h
  | cons o rest ih =>
    by_cases ho : o.key = k
    · simp [getObject, ho] at h ⊢; exact h
    · simp [getObject, ho] at h ⊢; exact ih h

theorem getObject_mem {B : Bucket} (hnd : (keysOf B).Nodup) {o : Obj} (ho : o ∈ B) :
    getObject B o.key = some o.body := by
  induction B with
  | nil => cases ho
  | cons p rest ih =>
    rw [keysOf_cons, List.nodup_cons] at hnd
    rcases List.mem_cons.mp ho with rfl | hm
    · simp [getObject]
    · have hk : ¬ p.key = o.key := by
        intro he
        exact hnd.1 (he ▸ List.mem_map.mpr ⟨o, hm, rfl⟩)
      simp [getObject, hk]
      exact ih hnd.2 hm

theorem delObj_append (X Y : Bucket) (k : Str) :
    delObj (X ++ Y) k = delObj X k ++ delObj Y k := by
  simp [delObj, List.filter_append]

theorem delObj_singleton_ne {o : Obj} {k : Str} (h : o.key ≠ k) : delObj [o] k = [o] := by
  simp [delObj, h]

theorem delObjs_append (X Y : Bucket) (ks : List Str) :
    delObjs (X ++ Y) ks = delObjs X ks ++ delObjs Y ks := by
  simp [delObjs, List.filter_append]

theorem delObjs_singleton_nmem {o : Obj} {ks : List Str} (h : o.key ∉ ks) :
    delObjs [o] ks = [o] := by
  simp [delObjs, h]

theorem delObjs_delObj (B : Bucket) (k : Str) (ks : List Str) :
    delObjs (delObj B k) ks = delObjs B (k :: ks) := by
  unfold delObjs delObj
  rw [List.filter_filter]
  apply List.filter_congr
  intro o _
  by_cases h1 : o.key = k
  · simp [h1]
  · by_cases h2 : o.key ∈ ks
    · simp [h1, h2]
    · simp [h1, h2]

theorem mem_of_mem_keysOf_delObj {B : Bucket} {k k' : Str}
    (h : k' ∈ keysOf (delObj B k)) : k' ∈ keysOf B := by
  rcases List.mem_map.mp h with ⟨o, ho, rfl⟩
  exact List.mem_map.mpr ⟨o, (List.mem_filter.mp ho).1, rfl⟩

theorem mem_listObjects {b : Bucket} {p : Str} {o : Obj} :
    o ∈ listObjects b p ↔ o ∈ b ∧ lpre p o.key = true := by
  simp [listObjects, List.mem_filter]

theorem listObjects_append (X Y : Bucket) (p : Str) :
    listObjects (X ++ Y) p = listObjects X p ++ listObjects Y p := by
  simp [listObjects, List.filter_append]

theorem listObjects_eq_nil_iff {b : Bucket} {p : Str} :
    listObjects b p = [] ↔ ∀ o ∈ b, lpre p o.key = false := by
  simp [listObjects, List.filter_eq_nil_iff]

theorem listObjects_delObjs_self (b : Bucket) (p : Str) :
    listObjects (delObjs b ((listObjects b p).map Obj.key)) p = [] := by
  rw [listObjects_eq_nil_iff]
  intro o ho
  have hob : o ∈ b := (List.mem_filter.mp ho).1
  have hnk := (List.mem_filter.mp ho).2
  cases hp : lpre p o.key with
  | false => rfl
  | true =>
    exfalso
    have hoL : o ∈ listObjects b p := mem_listObjects.mpr ⟨hob, hp⟩
    have : o.key ∈ (listObjects b p).map Obj.key := List.mem_map.mpr ⟨o, hoL, rfl⟩
    simp [this] at hnk

theorem fresh_newKeys (b : Bucket) (s t : Str)
    (htgt : listObjects b (folderPfx t) = []) :
    ∀ o ∈ listObjects b (folderPfx s), newKeyOf s t o.key ∉ keysOf b := by
  intro o ho hmem
  have hs : lpre (folderPfx s) o.key = true := (mem_listObjects.mp ho).2
  have ht : lpre (folderPfx t) (newKeyOf s t o.key) = true := lpre_newKeyOf s t hs
  rcases List.mem_map.mp hmem with ⟨o', ho', hkey⟩
  have hto : o' ∈ listObjects b (folderPfx t) :=
    mem_listObjects.mpr ⟨ho', by rw [hkey]; exact ht⟩
  rw [htgt] at hto
  cases hto

theorem nodup_newKeys (b : Bucket) (s t : Str) (hnd : (keysOf b).Nodup) :
    ((listObjects b (folderPfx s)).map (fun o => newKeyOf s t o.key)).Nodup := by
  have hsub : List.Sublist (listObjects b (folderPfx s)) b := List.filter_sublist b
  have hkeys : (keysOf (listObjects b (folderPfx s))).Nodup :=
    List.Nodup.sublist (List.Sublist.map Obj.key hsub) hnd
  have hmap : (listObjects b (folderPfx s)).map (fun o => newKeyOf s t o.key)
      = (keysOf (listObjects b (folderPfx s))).map (newKeyOf s t) := by
    simp [keysOf, List.map_map, Function.comp]
  rw [hmap]
  refine List.Nodup.map_on ?_ hkeys
  intro x hx y hy hxy
  rcases List.mem_map.mp hx with ⟨ox, hox, hkx⟩
  rcases List.mem_map.mp hy with ⟨oy, hoy, hky⟩
  subst hkx
  subst hky
  exact newKeyOf_inj s t (mem_listObjects.mp hox).2 (mem_listObjects.mp hoy).2 hxy

theorem renameLoop_spec (s t : Str)
    (hst : lpre (folderPfx s) (folderPfx t) = false)
    (hts : lpre (folderPfx t) (folderPfx s) = false) :
    ∀ (R : List Obj) (B : Bucket) (n : Nat),
      (∀ o ∈ R, lpre (folderPfx s) o.key = true) →
      (∀ o ∈ R, newKeyOf s t o.key ∉ keysOf B) →
      (R.map (fun o => newKeyOf s t o.key)).Nodup →
      renameLoop s t ⟨B, [], n⟩ R
        = .ok ⟨delObjs B (R.map Obj.key) ++ renamedObjs s t R, [], n + 2 * R.length⟩ := by
  intro R
  induction R with
  | nil =>
    intro B n _ _ _
    simp [renameLoop, renamedObjs, delObjs, List.filter_eq_self]
  | cons o R ih =>
    intro B n h1 hfr hnd
    rw [List.map_cons, List.nodup_cons] at hnd
    have hko : lpre (folderPfx s) o.key = true := h1 o (List.mem_cons_self o R)
    have hnew : lpre (folderPfx t) (newKeyOf s t o.key) = true := lpre_newKeyOf s t hko
    have hnews : lpre (folderPfx s) (newKeyOf s t o.key) = false :=
      lpre_false_of _ _ _ hnew hst hts
    have hne : newKeyOf s t o.key ≠ o.key := by
      intro he
      rw [he, hko] at hnews
      exact Bool.noConfusion hnews
    have hput : putObject B (newKeyOf s t o.key) [] = B ++ [⟨newKeyOf s t o.key, []⟩] :=
      put_fresh [] (hfr o (List.mem_cons_self o R))
    have hdel : delObj [(⟨newKeyOf s t o.key, []⟩ : Obj)] o.key
        = [(⟨newKeyOf s t o.key, []⟩ : Obj)] := @delObj_singleton_ne ⟨newKeyOf s t o.key, []⟩ o.key hne
    have hstep : renameLoop s t ⟨B, [], n⟩ (o :: R)
        = renameLoop s t ⟨delObj B o.key ++ [⟨newKeyOf s t o.key, []⟩], [], n + 1 + 1⟩ R := by
      simp [renameLoop, sendPut, sendDelete, popFault, hput, delObj_append, hdel]
    have h1r : ∀ x ∈ R, lpre (folderPfx s) x.key = true :=
      fun x hx => h1 x (List.mem_cons_of_mem o hx)
    have hfr1 : ∀ x ∈ R, newKeyOf s t x.key
        ∉ keysOf (delObj B o.key ++ [⟨newKeyOf s t o.key, []⟩]) := by
      intro x hx hmem
      rw [keysOf_append] at hmem
      rcases List.mem_append.mp hmem with hm | hm
      · exact hfr x (List.mem_cons_of_mem o hx) (mem_of_mem_keysOf_delObj hm)
      · have hxo : newKeyOf s t x.key = newKeyOf s t o.key := by simpa [keysOf] using hm
        exact hnd.1 (by rw [← hxo]; exact List.mem_map.mpr ⟨x, hx, rfl⟩)
    have hnkR : newKeyOf s t o.key ∉ R.map Obj.key := by
      intro hm
      rcases List.mem_map.mp hm with ⟨o', ho', he⟩
      have hps := h1 o' (List.mem_cons_of_mem o ho')
      rw [← he] at hnews
      rw [hps] at hnews
      exact Bool.noConfusion hnews
    have hdels : delObjs [(⟨newKeyOf s t o.key, []⟩ : Obj)] (R.map Obj.key)
        = [(⟨newKeyOf s t o.key, []⟩ : Obj)] :=
      @delObjs_singleton_nmem ⟨newKeyOf s t o.key, []⟩ (R.map Obj.key) hnkR
    rw [hstep, ih _ _ h1r hfr1 hnd.2]
    rw [delObjs_append, delObjs_delObj, hdels, List.length_cons]
    have harith : n + 1 + 1 + 2 * R.length = n + 2 * (R.length + 1) := by omega
    rw [harith]
    simp [renamedObjs, List.append_assoc]

theorem copyLoop_spec (s t : Str) :
    ∀ (R : List Obj) (B : Bucket) (n : Nat),
      (∀ o ∈ R, getObject B o.key = some o.body) →
      (∀ o ∈ R, newKeyOf s t o.key ∉ keysOf B) →
      (R.map (fun o => newKeyOf s t o.key)).Nodup →
      copyLoop s t ⟨B, [], n⟩ R = .ok ⟨B ++ copiedObjs s t R, [], n + R.length⟩ := by
  intro R
  induction R with
  | nil =>
    intro B n _ _ _
    simp [copyLoop, copiedObjs]
  | cons o R ih =>
    intro B n hget hfr hnd
    rw [List.map_cons, List.nodup_cons] at hnd
    have hput : putObject B (newKeyOf s t o.key) o.body
        = B ++ [⟨newKeyOf s t o.key, o.body⟩] :=
      put_fresh o.body (hfr o (List.mem_cons_self o R))
    have hstep : copyLoop s t ⟨B, [], n⟩ (o :: R)
        = copyLoop s t ⟨B ++ [⟨newKeyOf s t o.key, o.body⟩], [], n + 1⟩ R := by
      simp [copyLoop, sendCopy, popFault, hget o (List.mem_cons_self o R), hput]
    have hget1 : ∀ x ∈ R, getObject (B ++ [⟨newKeyOf s t o.key, o.body⟩]) x.key
        = some x.body :=
      fun x hx => getObject_append_left _ (hget x (List.mem_cons_of_mem o hx))
    have hfr1 : ∀ x ∈ R, newKeyOf s t x.key
        ∉ keysOf (B ++ [⟨newKeyOf s t o.key, o.body⟩]) := by
      intro x hx hmem
      rw [keysOf_append] at hmem
      rcases List.mem_append.mp hmem with hm | hm
      · exact hfr x (List.mem_cons_of_mem o hx) hm
      · have hxo : newKeyOf s t x.key = newKeyOf s t o.key := by simpa [keysOf] using hm
        exact hnd.1 (by rw [← hxo]; exact List.mem_map.mpr ⟨x, hx, rfl⟩)
    rw [hstep, ih _ _ hget1 hfr1 hnd.2, List.length_cons]
    have harith : n + 1 + R.length = n + (R.length + 1) := by omega
    rw [harith]
    simp [copiedObjs, List.append_assoc]

theorem uploadLoop_spec (folder : Str) :
    ∀ (files : List UFile) (B : Bucket) (n : Nat),
      uploadLoop folder ⟨B, [], n⟩ files
        = .ok ⟨uploadFold folder B files, [], n + files.length⟩ := by
  intro files
  induction files with
  | nil =>
    intro B n
    simp [uploadLoop, uploadFold]
  | cons f files ih =>
    intro B n
    have hstep : uploadLoop folder ⟨B, [], n⟩ (f :: files)
        = uploadLoop folder ⟨putObject B (joinKey folder f.originalname) f.buffer, [], n + 1⟩ files := by
      simp [uploadLoop, sendPut, popFault]
    rw [hstep, ih, List.length_cons]
    have harith : n + 1 + files.length = n + (files.length + 1) := by omega
    rw [harith]
    rfl

theorem uploadFold_preserves (folder : Str) :
    ∀ (files : List UFile) (B : Bucket) (k : Str),
      getObject B k ≠ none →
      getObject (uploadFold folder B files) k ≠ none := by
  intro files
  induction files with
  | nil => exact fun B k h => h
  | cons f files ih =>
    intro B k h
    apply ih
    by_cases he : k = joinKey folder f.originalname
    · rw [he, getObject_put_self]
      simp
    · rw [getObject_put_other _ _ he]
      exact h

theorem uploadFold_mem (folder : Str) :
    ∀ (files : List UFile) (B : Bucket) (f : UFile), f ∈ files →
      getObject (uploadFold folder B files) (joinKey folder f.originalname) ≠ none := by
  intro files
  induction files with
  | nil =>
    intro B f h
    cases h
  | cons g files ih =>
    intro B f hf
    rcases List.mem_cons.mp hf with rfl | hm
    · show getObject
        (uploadFold folder (putObject B (joinKey folder f.originalname) f.buffer) files)
        (joinKey folder f.originalname) ≠ none
      apply uploadFold_preserves
      rw [getObject_put_self]
      simp
    · exact ih _ f hm

theorem listObjects_delObjs_sub (b : Bucket) (ks : List Str) (p : Str)
    (h : listObjects b p = []) : listObjects (delObjs b ks) p = [] := by
  rw [listObjects_eq_nil_iff] at h ⊢
  intro o ho
  exact h o (List.mem_filter.mp ho).1

theorem listObjects_renamedObjs_source (R : List Obj) (s t : Str)
    (hst : lpre (folderPfx s) (folderPfx t) = false)
    (hts : lpre (folderPfx t) (folderPfx s) = false)
    (h1 : ∀ o ∈ R, lpre (folderPfx s) o.key = true) :
    listObjects (renamedObjs s t R) (folderPfx s) = [] := by
  rw [listObjects_eq_nil_iff]
  intro o ho
  simp only [renamedObjs, List.mem_map] at ho
  rcases ho with ⟨o', ho', rfl⟩
  exact lpre_false_of _ _ _ (lpre_newKeyOf s t (h1 o' ho')) hst hts

theorem listObjects_renamedObjs_target (R : List Obj) (s t : Str)
    (h1 : ∀ o ∈ R, lpre (folderPfx s) o.key = true) :
    listObjects (renamedObjs s t R) (folderPfx t) = renamedObjs s t R := by
  rw [listObjects, List.filter_eq_self]
  intro o ho
  simp only [renamedObjs, List.mem_map] at ho
  rcases ho with ⟨o', ho', rfl⟩
  exact lpre_newKeyOf s t (h1 o' ho')

theorem listObjects_copiedObjs_source (R : List Obj) (s t : Str)
    (hst : lpre (folderPfx s) (folderPfx t) = false)
    (hts : lpre (folderPfx t) (folderPfx s) = false)
    (h1 : ∀ o ∈ R, lpre (folderPfx s) o.key = true) :
    listObjects (copiedObjs s t R) (folderPfx s) = [] := by
  rw [listObjects_eq_nil_iff]
  intro o ho
  simp only [copiedObjs, List.mem_map] at ho
  rcases ho with ⟨o', ho', rfl⟩
  exact lpre_false_of _ _ _ (lpre_newKeyOf s t (h1 o' ho')) hst hts

theorem listObjects_copiedObjs_target (R : List Obj) (s t : Str)
    (h1 : ∀ o ∈ R, lpre (folderPfx s) o.key = true) :
    listObjects (copiedObjs s t R) (folderPfx t) = copiedObjs s t R := by
  rw [listObjects, List.filter_eq_self]
  intro o ho
  simp only [copiedObjs, List.mem_map] at ho
  rcases ho with ⟨o', ho', rfl⟩
  exact lpre_newKeyOf s t (h1 o' ho')

theorem renameFolder_run (b : Bucket) (s t : Str)
    (hnd : (keysOf b).Nodup)
    (htgt : listObjects b (folderPfx t) = [])
    (hst : lpre (folderPfx s) (folderPfx t) = false)
    (hts : lpre (folderPfx t) (folderPfx s) = false)
    (hne : listObjects b (folderPfx s) ≠ []) :
    renameFolder ⟨b, [], 0⟩ s t
      = (Resp.msg 200 "Folder renamed successfully",
         ⟨delObjs b ((listObjects b (folderPfx s)).map Obj.key)
            ++ renamedObjs s t (listObjects b (folderPfx s)), [],
          1 + 2 * (listObjects b (folderPfx s)).length⟩) := by
  have h1 : ∀ o ∈ listObjects b (folderPfx s), lpre (folderPfx s) o.key = true :=
    fun o ho => (mem_listObjects.mp ho).2
  have hloop := renameLoop_spec s t hst hts (listObjects b (folderPfx s)) b 1 h1
    (fresh_newKeys b s t htgt) (nodup_newKeys b s t hnd)
  have hlen : ¬ (listObjects b (folderPfx s)).length = 0 := by
    simpa [List.length_eq_zero] using hne
  unfold renameFolder
  simp [sendList, popFault, hlen, hloop]

theorem duplicateFolder_run (b : Bucket) (s t : Str)
    (hnd : (keysOf b).Nodup)
    (htgt : listObjects b (folderPfx t) = [])
    (hne : listObjects b (folderPfx s) ≠ []) :
    duplicateFolder ⟨b, [], 0⟩ s t
      = (Resp.msg 201 "Folder duplicated successfully",
         ⟨b ++ copiedObjs s t (listObjects b (folderPfx s)), [],
          1 + (listObjects b (folderPfx s)).length⟩) := by
  have hget : ∀ o ∈ listObjects b (folderPfx s), getObject b o.key = some o.body :=
    fun o ho => getObject_mem hnd (mem_listObjects.mp ho).1
  have hloop := copyLoop_spec s t (listObjects b (folderPfx s)) b 1 hget
    (fresh_newKeys b s t htgt) (nodup_newKeys b s t hnd)
  have hlen : ¬ (listObjects b (folderPfx s)).length = 0 := by
    simpa [List.length_eq_zero] using hne
  unfold duplicateFolder
  simp [sendList, popFault, hlen, hloop]

theorem deleteFile_wildcard_run (b : Bucket) (folder : Str)
    (hne : listObjects b (folderPfx folder) ≠ []) :
    deleteFile ⟨b, [], 0⟩ folder (str "*")
      = (Resp.msg 200 ("Deleted " ++ toString (listObjects b (folderPfx folder)).length
            ++ " files successfully"),
         ⟨delObjs b ((listObjects b (folderPfx folder)).map Obj.key), [], 2⟩) := by
  have hlen : ¬ (listObjects b (folderPfx folder)).length = 0 := by
    simpa [List.length_eq_zero] using hne
  unfold deleteFile
  simp [sendList, sendDeleteObjects, popFault, hlen]

theorem copyLoop_fault (s t : Str) (e : Fault) :
    ∀ (R : List Obj) (k : Nat) (B : Bucket) (n : Nat),
      k < R.length →
      (∀ o ∈ R, getObject B o.key ≠ none) →
      ∃ B', copyLoop s t ⟨B, List.replicate k none ++ [some e], n⟩ R
              = .error (e, ⟨B', [], n + k + 1⟩) := by
  intro R
  induction R with
  | nil =>
    intro k B n hk _
    exact absurd hk (by simp)
  | cons o R ih =>
    intro k B n hk hpres
    cases k with
    | zero =>
      refine ⟨B, ?_⟩
      simp [copyLoop, sendCopy, popFault]
    | succ k =>
      rcases hget : getObject B o.key with _ | body
      · exact absurd hget (hpres o (List.mem_cons_self o R))
      · have hpres1 : ∀ x ∈ R,
            getObject (putObject B (newKeyOf s t o.key) body) x.key ≠ none := by
          intro x hx
          by_cases he : x.key = newKeyOf s t o.key
          · rw [he, getObject_put_self]
            simp
          · rw [getObject_put_other _ _ he]
            exact hpres x (List.mem_cons_of_mem o hx)
        rcases ih k _ (n + 1) (by simp at hk; omega) hpres1 with ⟨B', hB'⟩
        refine ⟨B', ?_⟩
        rw [List.replicate_succ, List.cons_append]
        have hstep : copyLoop s t ⟨B, none :: (List.replicate k none ++ [some e]), n⟩ (o :: R)
            = copyLoop s t ⟨putObject B (newKeyOf s t o.key) body,
                List.replicate k none ++ [some e], n + 1⟩ R := by
          simp [copyLoop, sendCopy, popFault, hget]
        rw [hstep, hB']
        have harith : n + 1 + k + 1 = n + (k + 1) + 1 := by omega
        rw [harith]

theorem renameLoop_fault (s t : Str) (e : Fault) :
    ∀ (R : List Obj) (k : Nat) (B : Bucket) (n : Nat),
      k < 2 * R.length →
      ∃ B', renameLoop s t ⟨B, List.replicate k none ++ [some e], n⟩ R
              = .error (e, ⟨B', [], n + k + 1⟩) := by
  intro R
  induction R with
  | nil =>
    intro k B n hk
    exact absurd hk (by simp)
  | cons o R ih =>
    intro k B n hk
    rcases k with _ | k
    · refine ⟨B, ?_⟩
      simp [renameLoop, sendPut, popFault]
    · rcases k with _ | k
      · refine ⟨putObject B (newKeyOf s t o.key) [], ?_⟩
        simp [renameLoop, sendPut, sendDelete, popFault, List.replicate_succ]
      · rcases ih k _ (n + 2) (by simp [List.length_cons] at hk ⊢; omega) with ⟨B', hB'⟩
        refine ⟨B', ?_⟩
        have hsched : List.replicate (k + 1 + 1) (none : Option Fault) ++ [some e]
            = none :: none :: (List.replicate k none ++ [some e]) := by
          simp [List.replicate_succ]
        rw [hsched]
        have hstep : renameLoop s t ⟨B, none :: none :: (List.replicate k none ++ [some e]), n⟩
              (o :: R)
            = renameLoop s t ⟨delObj (putObject B (newKeyOf s t o.key) []) o.key,
                List.replicate k none ++ [some e], n + 1 + 1⟩ R := by
          simp [renameLoop, sendPut, sendDelete, popFault]
        rw [hstep, hB']
        have harith : n + 1 + 1 + k + 1 = n + (k + 1 + 1) + 1 := by omega
        rw [harith]

theorem uploadLoop_fault (folder : Str) (e : Fault) :
    ∀ (files : List UFile) (k : Nat) (B : Bucket) (n : Nat),
      k < files.length →
      ∃ B', uploadLoop folder ⟨B, List.replicate k none ++ [some e], n⟩ files
              = .error (e, ⟨B', [], n + k + 1⟩) := by
  intro files
  induction files with
  | nil =>
    intro k B n hk
    exact absurd hk (by simp)
  | cons f files ih =>
    intro k B n hk
    cases k with
    | zero =>
      refine ⟨B, ?_⟩
      simp [uploadLoop, sendPut, popFault]
    | succ k =>
      rcases ih k (putObject B (joinKey folder f.originalname) f.buffer) (n + 1)
          (by simp at hk; omega) with ⟨B', hB'⟩
      refine ⟨B', ?_⟩
      rw [List.replicate_succ, List.cons_append]
      have hstep : uploadLoop folder ⟨B, none :: (List.replicate k none ++ [some e]), n⟩
            (f :: files)
          = uploadLoop folder ⟨putObject B (joinKey folder f.originalname) f.buffer,
              List.replicate k none ++ [some e], n + 1⟩ files := by
        simp [uploadLoop, sendPut, popFault]
      rw [hstep, hB']
      have harith : n + 1 + k + 1 = n + (k + 1) + 1 := by omega
      rw [harith]

/- ------------------------------------------------------------------
   The claims.
   ------------------------------------------------------------------ -/

/-- C1: the spec says a successful rename stores, at each substituted
key, an object whose content equals the source object's content, then
deletes the source.  The code's "copy" is `new PutObjectCommand({Bucket,
CopySource, Key: newKey})`: `PutObject` ignores the unknown `CopySource`
member and, with no `Body`, stores a zero-length object, so the content
is lost.  On the bucket `[⟨"a/f", "hello"⟩]`, renaming `"a"` to `"b"`
reports success but leaves `""` (not `"hello"`) at `"b/f"`.  The claim
matches the code's own comment (`// Copy object to new location`) and
the `CopyObjectCommand` the duplicate route uses, so this is a code
bug, exhibited here by evaluating the handler at the failing input. -/
theorem claim1_rename_loses_content :
    (renameFolder ⟨[⟨str "a/f", str "hello"⟩], [], 0⟩ (str "a") (str "b")).1
      = Resp.msg 200 "Folder renamed successfully" ∧
    getObject [⟨str "a/f", str "hello"⟩] (str "a/f") = some (str "hello") ∧
    getObject (renameFolder ⟨[⟨str "a/f", str "hello"⟩], [], 0⟩ (str "a") (str "b")).2.bucket
        (str "b/f") = some [] ∧
    (str "hello" : Str) ≠ [] := by
  decide

/-- C2 counterexample: two successful duplications, of a source folder
with 1 object and of one with 2, return the very same response, so the
response of `/duplicate-folder` cannot carry the count of objects
copied, contrary to the claim. -/
theorem claim2_counterexample :
    (duplicateFolder ⟨[⟨str "a/f", str "x"⟩], [], 0⟩ (str "a") (str "c")).1
      = Resp.msg 201 "Folder duplicated successfully" ∧
    (duplicateFolder ⟨[⟨str "a/f", str "x"⟩, ⟨str "a/g", str "y"⟩], [], 0⟩
        (str "a") (str "c")).1
      = Resp.msg 201 "Folder duplicated successfully" ∧
    (listObjects [⟨str "a/f", str "x"⟩] (folderPfx (str "a"))).length = 1 ∧
    (listObjects [⟨str "a/f", str "x"⟩, ⟨str "a/g", str "y"⟩] (folderPfx (str "a"))).length
      = 2 := by
  decide

/-- C2 (amended): on success `/duplicate-folder` responds with the fixed
message `"Folder duplicated successfully"`; no count of objects copied
is part of any response of the route, whose responses are exactly the
fixed 201 success message, the fixed 404 not-found message, or a 500
carrying an error message. -/
theorem claim2_amended (st : St) (s t : Str) :
    (duplicateFolder st s t).1 = Resp.msg 201 "Folder duplicated successfully" ∨
    (duplicateFolder st s t).1 = Resp.msg 404 "Source folder is empty or not found" ∨
    ∃ m, (duplicateFolder st s t).1 = Resp.fail 500 m := by
  unfold duplicateFolder
  rcases hl : sendList st (folderPfx s) with ⟨e, st1⟩ | ⟨contents, st1⟩
  · simp only [hl]
    exact Or.inr (Or.inr ⟨e.message, rfl⟩)
  · simp only [hl]
    by_cases hz : contents.length = 0
    · rw [if_pos hz]
      exact Or.inr (Or.inl rfl)
    · rw [if_neg hz]
      rcases hc : copyLoop s t st1 contents with ⟨e2, st2⟩ | st2
      · simp only [hc]
        exact Or.inr (Or.inr ⟨e2.message, rfl⟩)
      · simp [hc]

/-- C3 counterexample: with a pre-existing object under the target
prefix (`"b/g"`), renaming a source folder with N = 1 object succeeds
but the target prefix then lists 2 objects, not N. -/
theorem claim3_counterexample :
    (renameFolder ⟨[⟨str "a/f", str "x"⟩, ⟨str "b/g", str "y"⟩], [], 0⟩
        (str "a") (str "b")).1 = Resp.msg 200 "Folder renamed successfully" ∧
    (listObjects [⟨str "a/f", str "x"⟩, ⟨str "b/g", str "y"⟩] (folderPfx (str "a"))).length
      = 1 ∧
    (listObjects (renameFolder ⟨[⟨str "a/f", str "x"⟩, ⟨str "b/g", str "y"⟩], [], 0⟩
        (str "a") (str "b")).2.bucket (folderPfx (str "b"))).length = 2 := by
  decide

/-- C3 (amended): additionally assuming the bucket's keys are distinct,
the target prefix's listing is initially empty, and neither folder
prefix extends the other, a fault-free rename of a non-empty source
folder with N listed objects reports success, after which the target
prefix lists N objects and the source prefix lists none. -/
theorem claim3_amended (b : Bucket) (s t : Str)
    (hnd : (keysOf b).Nodup)
    (htgt : listObjects b (folderPfx t) = [])
    (hst : lpre (folderPfx s) (folderPfx t) = false)
    (hts : lpre (folderPfx t) (folderPfx s) = false)
    (hne : listObjects b (folderPfx s) ≠ []) :
    (renameFolder ⟨b, [], 0⟩ s t).1 = Resp.msg 200 "Folder renamed successfully" ∧
    (listObjects (renameFolder ⟨b, [], 0⟩ s t).2.bucket (folderPfx t)).length
        = (listObjects b (folderPfx s)).length ∧
    listObjects (renameFolder ⟨b, [], 0⟩ s t).2.bucket (folderPfx s) = [] := by
  have h1 : ∀ o ∈ listObjects b (folderPfx s), lpre (folderPfx s) o.key = true :=
    fun o ho => (mem_listObjects.mp ho).2
  rw [renameFolder_run b s t hnd htgt hst hts hne]
  refine ⟨rfl, ?_, ?_⟩
  · show (listObjects
        (delObjs b ((listObjects b (folderPfx s)).map Obj.key)
          ++ renamedObjs s t (listObjects b (folderPfx s))) (folderPfx t)).length
      = (listObjects b (folderPfx s)).length
    rw [listObjects_append, listObjects_delObjs_sub b _ _ htgt,
      listObjects_renamedObjs_target _ s t h1]
    simp [renamedObjs]
  · show listObjects
        (delObjs b ((listObjects b (folderPfx s)).map Obj.key)
          ++ renamedObjs s t (listObjects b (folderPfx s))) (folderPfx s) = []
    rw [listObjects_append, listObjects_delObjs_self,
      listObjects_renamedObjs_source _ s t hst hts h1]
    rfl

/-- C4 counterexample: with a pre-existing object under the target
prefix (`"b/g"`), duplicating a source folder with N = 1 object leaves
the source listing unchanged but the target prefix then lists 2
objects, not N. -/
theorem claim4_counterexample :
    (duplicateFolder ⟨[⟨str "a/f", str "x"⟩, ⟨str "b/g", str "y"⟩], [], 0⟩
        (str "a") (str "b")).1 = Resp.msg 201 "Folder duplicated successfully" ∧
    (listObjects [⟨str "a/f", str "x"⟩, ⟨str "b/g", str "y"⟩] (folderPfx (str "a"))).length
      = 1 ∧
    (listObjects (duplicateFolder ⟨[⟨str "a/f", str "x"⟩, ⟨str "b/g", str "y"⟩], [], 0⟩
        (str "a") (str "b")).2.bucket (folderPfx (str "b"))).length = 2 := by
  decide

/-- C4 (amended): additionally assuming the bucket's keys are distinct,
the target prefix's listing is initially empty, and neither folder
prefix extends the other, a fault-free duplicate of a non-empty source
folder with N listed objects reports success, leaves the source
prefix's listing unchanged, and the target prefix then lists N
objects. -/
theorem claim4_amended (b : Bucket) (s t : Str)
    (hnd : (keysOf b).Nodup)
    (htgt : listObjects b (folderPfx t) = [])
    (hst : lpre (folderPfx s) (folderPfx t) = false)
    (hts : lpre (folderPfx t) (folderPfx s) = false)
    (hne : listObjects b (folderPfx s) ≠ []) :
    (duplicateFolder ⟨b, [], 0⟩ s t).1 = Resp.msg 201 "Folder duplicated successfully" ∧
    listObjects (duplicateFolder ⟨b, [], 0⟩ s t).2.bucket (folderPfx s)
        = listObjects b (folderPfx s) ∧
    (listObjects (duplicateFolder ⟨b, [], 0⟩ s t).2.bucket (folderPfx t)).length
        = (listObjects b (folderPfx s)).length := by
  have h1 : ∀ o ∈ listObjects b (folderPfx s), lpre (folderPfx s) o.key = true :=
    fun o ho => (mem_listObjects.mp ho).2
  rw [duplicateFolder_run b s t hnd htgt hne]
  refine ⟨rfl, ?_, ?_⟩
  · show listObjects (b ++ copiedObjs s t (listObjects b (folderPfx s))) (folderPfx s)
      = listObjects b (folderPfx s)
    rw [listObjects_append, listObjects_copiedObjs_source _ s t hst hts h1]
    simp
  · show (listObjects (b ++ copiedObjs s t (listObjects b (folderPfx s)))
        (folderPfx t)).length = (listObjects b (folderPfx s)).length
    rw [listObjects_append, htgt, listObjects_copiedObjs_target _ s t h1]
    simp [copiedObjs]

/-- C5: the target-key substitution of both `/duplicate-folder` and
`/rename-folder` (`newKeyOf`, i.e. `key.replace(sourceFolder,
targetFolder)`) replaces only the first textual occurrence of the
source prefix: for every listed key (one extending `sourceFolder + "/"`)
the result is the target prefix followed by the untouched remainder of
the key, and on the spec's example renaming `"a"` to `"b"` turns
`"a/sub/a/file"` into `"b/sub/a/file"`, the later `"a"` left intact. -/
theorem claim5_first_occurrence_only :
    (∀ s t k : Str, lpre (folderPfx s) k = true →
      newKeyOf s t k = folderPfx t ++ k.drop (folderPfx s).length) ∧
    newKeyOf (str "a") (str "b") (str "a/sub/a/file") = str "b/sub/a/file" ∧
    (str "a/sub/a/file").drop (folderPfx (str "a")).length = str "sub/a/file" := by
  refine ⟨?_, by decide, by decide⟩
  intro s t k h
  exact newKeyOf_pref s t h

/-- C6: on a source prefix whose listing is empty, both
`/duplicate-folder` and `/rename-folder` report the 404 not-found
message and leave the bucket unchanged, having issued exactly one
storage call (the listing) — no copy, put, or delete. -/
theorem claim6_not_found_no_mutation (b : Bucket) (s t : Str) (n : Nat)
    (h : listObjects b (folderPfx s) = []) :
    duplicateFolder ⟨b, [], n⟩ s t
        = (Resp.msg 404 "Source folder is empty or not found", ⟨b, [], n + 1⟩) ∧
    renameFolder ⟨b, [], n⟩ s t
        = (Resp.msg 404 "Source folder is empty or not found", ⟨b, [], n + 1⟩) := by
  constructor
  · unfold duplicateFolder
    simp [sendList, popFault, h]
  · unfold renameFolder
    simp [sendList, popFault, h]

/-- C7: the wildcard delete (`fileName = "*"`): on a folder prefix with
an empty listing it reports 404 and leaves the bucket untouched after
the single listing call; on a prefix with M listed objects it reports
`"Deleted M files successfully"`, issues one bulk delete of exactly the
listed keys, and the prefix's listing is empty afterwards. -/
theorem claim7_wildcard_delete (b : Bucket) (folder : Str) :
    (listObjects b (folderPfx folder) = [] →
      deleteFile ⟨b, [], 0⟩ folder (str "*")
        = (Resp.msg 404 "No files found in the folder", ⟨b, [], 1⟩)) ∧
    (listObjects b (folderPfx folder) ≠ [] →
      deleteFile ⟨b, [], 0⟩ folder (str "*")
        = (Resp.msg 200 ("Deleted " ++ toString (listObjects b (folderPfx folder)).length
              ++ " files successfully"),
           ⟨delObjs b ((listObjects b (folderPfx folder)).map Obj.key), [], 2⟩) ∧
      listObjects (delObjs b ((listObjects b (folderPfx folder)).map Obj.key))
          (folderPfx folder) = []) := by
  constructor
  · intro h
    unfold deleteFile
    simp [sendList, popFault, h]
  · intro h
    exact ⟨deleteFile_wildcard_run b folder h, listObjects_delObjs_self b (folderPfx folder)⟩

/-- C8: `/upload-files` accepts at most 50 files: beyond 50 the multer
limit rejects with the fixed 400 error and the bucket is untouched;
with between 1 and 50 files the route reports success listing the file
names and every file is stored under the (defaulted) folder prefix. -/
theorem claim8_upload_limit :
    (∀ (st : St) (folderField : Str) (files : List UFile), 50 < files.length →
      uploadFiles st folderField files
        = (Resp.fail 400 "Too many files. Maximum 50 files allowed.", st)) ∧
    (∀ (b : Bucket) (folderField : Str) (files : List UFile),
      files.length ≤ 50 → files ≠ [] →
      (uploadFiles ⟨b, [], 0⟩ folderField files).1
          = Resp.okUpload 201 "Files uploaded successfully" (files.map UFile.originalname) ∧
      ∀ f ∈ files,
        getObject (uploadFiles ⟨b, [], 0⟩ folderField files).2.bucket
          (joinKey (if folderField = [] then str "uploads" else folderField) f.originalname)
          ≠ none) := by
  constructor
  · intro st folderField files h
    unfold uploadFiles
    simp [h]
  · intro b folderField files h50 hnef
    have hnl : ¬ 50 < files.length := by omega
    have hlen0 : ¬ files.length = 0 := by
      simpa [List.length_eq_zero] using hnef
    have hrun : uploadFiles ⟨b, [], 0⟩ folderField files
        = (Resp.okUpload 201 "Files uploaded successfully" (files.map UFile.originalname),
           ⟨uploadFold (if folderField = [] then str "uploads" else folderField) b files,
            [], 0 + files.length⟩) := by
      unfold uploadFiles
      simp [hnl, hlen0, uploadLoop_spec]
    rw [hrun]
    refine ⟨rfl, ?_⟩
    intro f hf
    show getObject
        (uploadFold (if folderField = [] then str "uploads" else folderField) b files)
        (joinKey (if folderField = [] then str "uploads" else folderField) f.originalname)
      ≠ none
    exact uploadFold_mem _ files b f hf

/-- C9 counterexample: a storage error named `NotFound` with message
`"boom"` thrown by delete-file's `HeadObjectCommand` existence check is
not reported as a generic failure carrying `"boom"`: the handler maps
it to the fixed 404 response `{error: "File not found"}`. -/
theorem claim9_counterexample :
    deleteFile ⟨[⟨str "a/f", str "x"⟩], [some ⟨"NotFound", "boom"⟩], 0⟩
        (str "a") (str "f")
      = (Resp.fail 404 "File not found", ⟨[⟨str "a/f", str "x"⟩], [], 1⟩) ∧
    Resp.fail 404 "File not found" ≠ Resp.fail 500 "boom" := by
  decide

/-- C9 (amended): every route handler catches the errors of its storage
calls and answers with a response instead of propagating, consuming no
further storage call after the failing one (no retry); the failure is
reported as a 500 carrying the underlying error's message — with the
single exception of the delete-file existence check, where an error
named `NotFound` becomes the fixed 404 `"File not found"` response.
Stated per route for a fault on the first storage call (the state shows
exactly one call consumed and the bucket untouched), for a fault on an
arbitrary later call of the duplicate, rename, and upload fan-outs (the
run stops right at the failing call, schedule exhausted), and for a
fault on delete-file's second call in both branches (the bulk delete of
the wildcard path and the delete after a successful existence check) —
every storage call site of every route is covered. -/
theorem claim9_amended :
    (∀ (J : Type) (stringify : J → Str) (b : Bucket) (fs : List (Option Fault))
        (folder fileName : Str) (c : J) (e : Fault),
      createFile stringify ⟨b, some e :: fs, 0⟩ folder fileName c
        = (Resp.fail 500 e.message, ⟨b, fs, 1⟩)) ∧
    (∀ (J : Type) (stringify : J → Str) (b : Bucket) (fs : List (Option Fault))
        (folder fileName : Str) (c : J) (e : Fault),
      updateFile stringify ⟨b, some e :: fs, 0⟩ folder fileName c
        = (Resp.fail 500 e.message, ⟨b, fs, 1⟩)) ∧
    (∀ (J : Type) (parseJson : Str → Except String J) (b : Bucket)
        (fs : List (Option Fault)) (folder fileName : Str) (e : Fault),
      readFile parseJson ⟨b, some e :: fs, 0⟩ folder fileName
        = (ReadResp.fail 500 e.message, ⟨b, fs, 1⟩)) ∧
    (∀ (b : Bucket) (fs : List (Option Fault)) (folder : Str) (e : Fault),
      deleteFile ⟨b, some e :: fs, 0⟩ folder (str "*")
        = (Resp.fail 500 e.message, ⟨b, fs, 1⟩)) ∧
    (∀ (b : Bucket) (fs : List (Option Fault)) (folder fileName : Str) (e : Fault),
      fileName ≠ str "*" →
      (e.name ≠ "NotFound" →
        deleteFile ⟨b, some e :: fs, 0⟩ folder fileName
          = (Resp.fail 500 e.message, ⟨b, fs, 1⟩)) ∧
      (e.name = "NotFound" →
        deleteFile ⟨b, some e :: fs, 0⟩ folder fileName
          = (Resp.fail 404 "File not found", ⟨b, fs, 1⟩))) ∧
    (∀ (b : Bucket) (fs : List (Option Fault)) (folder : Option Str) (e : Fault),
      listFiles ⟨b, some e :: fs, 0⟩ folder = (Resp.fail 500 e.message, ⟨b, fs, 1⟩)) ∧
    (∀ (b : Bucket) (fs : List (Option Fault)) (e : Fault),
      listFolders ⟨b, some e :: fs, 0⟩ = (Resp.fail 500 e.message, ⟨b, fs, 1⟩)) ∧
    (∀ (b : Bucket) (fs : List (Option Fault)) (folder expires : Option Str) (e : Fault),
      getFileUrls ⟨b, some e :: fs, 0⟩ folder expires
        = (Resp.fail 500 e.message, ⟨b, fs, 1⟩)) ∧
    (∀ (b : Bucket) (fs : List (Option Fault)) (s t : Str) (e : Fault),
      duplicateFolder ⟨b, some e :: fs, 0⟩ s t
        = (Resp.fail 500 e.message, ⟨b, fs, 1⟩)) ∧
    (∀ (b : Bucket) (fs : List (Option Fault)) (s t : Str) (e : Fault),
      renameFolder ⟨b, some e :: fs, 0⟩ s t
        = (Resp.fail 500 e.message, ⟨b, fs, 1⟩)) ∧
    (∀ (b : Bucket) (folderField : Str) (files : List UFile)
        (fs : List (Option Fault)) (e : Fault),
      files.length ≤ 50 → files ≠ [] →
      uploadFiles ⟨b, some e :: fs, 0⟩ folderField files
        = (Resp.fail 500 e.message, ⟨b, fs, 1⟩)) ∧
    (∀ (b : Bucket) (s t : Str) (e : Fault) (k : Nat),
      k < (listObjects b (folderPfx s)).length →
      (duplicateFolder ⟨b, none :: (List.replicate k none ++ [some e]), 0⟩ s t).1
          = Resp.fail 500 e.message ∧
      (duplicateFolder ⟨b, none :: (List.replicate k none ++ [some e]), 0⟩ s t).2.calls
          = k + 2 ∧
      (duplicateFolder ⟨b, none :: (List.replicate k none ++ [some e]), 0⟩ s t).2.faults
          = []) ∧
    (∀ (b : Bucket) (s t : Str) (e : Fault) (k : Nat),
      k < 2 * (listObjects b (folderPfx s)).length →
      (renameFolder ⟨b, none :: (List.replicate k none ++ [some e]), 0⟩ s t).1
          = Resp.fail 500 e.message ∧
      (renameFolder ⟨b, none :: (List.replicate k none ++ [some e]), 0⟩ s t).2.calls
          = k + 2 ∧
      (renameFolder ⟨b, none :: (List.replicate k none ++ [some e]), 0⟩ s t).2.faults
          = []) ∧
    (∀ (b : Bucket) (folder : Str) (e : Fault),
      listObjects b (folderPfx folder) ≠ [] →
      deleteFile ⟨b, none :: [some e], 0⟩ folder (str "*")
        = (Resp.fail 500 e.message, ⟨b, [], 2⟩)) ∧
    (∀ (b : Bucket) (folder fileName : Str) (e : Fault),
      fileName ≠ str "*" →
      getObject b (joinKey folder fileName) ≠ none →
      deleteFile ⟨b, none :: [some e], 0⟩ folder fileName
        = (Resp.fail 500 e.message, ⟨b, [], 2⟩)) ∧
    (∀ (b : Bucket) (folderField : Str) (files : List UFile) (e : Fault) (k : Nat),
      files.length ≤ 50 → k < files.length →
      (uploadFiles ⟨b, List.replicate k none ++ [some e], 0⟩ folderField files).1
          = Resp.fail 500 e.message ∧
      (uploadFiles ⟨b, List.replicate k none ++ [some e], 0⟩ folderField files).2.calls
          = k + 1 ∧
      (uploadFiles ⟨b, List.replicate k none ++ [some e], 0⟩ folderField files).2.faults
          = []) := by
  refine ⟨?_, ?_, ?_, ?_, ?_, ?_, ?_, ?_, ?_, ?_, ?_, ?_, ?_, ?_, ?_, ?_⟩
  · intro J stringify b fs folder fileName c e
    unfold createFile
    simp [sendPut, popFault]
  · intro J stringify b fs folder fileName c e
    unfold updateFile
    simp [sendPut, popFault]
  · intro J parseJson b fs folder fileName e
    unfold readFile
    simp [sendGet, popFault]
  · intro b fs folder e
    unfold deleteFile
    simp [sendList, popFault]
  · intro b fs folder fileName e hneq
    constructor
    · intro hname
      unfold deleteFile
      rw [if_neg hneq]
      simp [sendHead, popFault, hname]
    · intro hname
      unfold deleteFile
      rw [if_neg hneq]
      simp [sendHead, popFault, hname]
  · intro b fs folder e
    unfold listFiles
    simp [sendListDelim, popFault]
  · intro b fs e
    unfold listFolders
    simp [sendListDelim, popFault]
  · intro b fs folder expires e
    unfold getFileUrls
    simp [sendList, popFault]
  · intro b fs s t e
    unfold duplicateFolder
    simp [sendList, popFault]
  · intro b fs s t e
    unfold renameFolder
    simp [sendList, popFault]
  · intro b folderField files fs e h50 hnef
    have hnl : ¬ 50 < files.length := by omega
    cases files with
    | nil => exact absurd rfl hnef
    | cons f rest =>
      unfold uploadFiles
      simp only [List.length_cons] at h50
      simp [hnl, uploadLoop, sendPut, popFault]
      omega
  · intro b s t e k hk
    have hlen : ¬ (listObjects b (folderPfx s)).length = 0 := by omega
    have hpres : ∀ o ∈ listObjects b (folderPfx s), getObject b o.key ≠ none := by
      intro o ho hnone
      exact (getObject_eq_none_iff b o.key).mp hnone
        (List.mem_map.mpr ⟨o, (mem_listObjects.mp ho).1, rfl⟩)
    rcases copyLoop_fault s t e (listObjects b (folderPfx s)) k b 1 hk hpres with ⟨B', hB'⟩
    have hrun : duplicateFolder ⟨b, none :: (List.replicate k none ++ [some e]), 0⟩ s t
        = (Resp.fail 500 e.message, ⟨B', [], 1 + k + 1⟩) := by
      unfold duplicateFolder
      simp [sendList, popFault, hlen, hB']
    rw [hrun]
    refine ⟨rfl, ?_, rfl⟩
    show 1 + k + 1 = k + 2
    omega
  · intro b s t e k hk
    have hlen : ¬ (listObjects b (folderPfx s)).length = 0 := by omega
    rcases renameLoop_fault s t e (listObjects b (folderPfx s)) k b 1 hk with ⟨B', hB'⟩
    have hrun : renameFolder ⟨b, none :: (List.replicate k none ++ [some e]), 0⟩ s t
        = (Resp.fail 500 e.message, ⟨B', [], 1 + k + 1⟩) := by
      unfold renameFolder
      simp [sendList, popFault, hlen, hB']
    rw [hrun]
    refine ⟨rfl, ?_, rfl⟩
    show 1 + k + 1 = k + 2
    omega
  · intro b folder e hne
    have hlen : ¬ (listObjects b (folderPfx folder)).length = 0 := by
      simpa [List.length_eq_zero] using hne
    unfold deleteFile
    simp [sendList, sendDeleteObjects, popFault, hlen]
  · intro b folder fileName e hneq hpres
    have hsome : (getObject b (joinKey folder fileName)).isSome = true := by
      rcases hg : getObject b (joinKey folder fileName) with _ | v
      · exact absurd hg hpres
      · rfl
    unfold deleteFile
    rw [if_neg hneq]
    simp [sendHead, sendDelete, popFault, hsome]
  · intro b folderField files e k h50 hk
    have hnl : ¬ 50 < files.length := by omega
    have hlen0 : ¬ files.length = 0 := by omega
    rcases uploadLoop_fault (if folderField = [] then str "uploads" else folderField)
        e files k b 0 hk with ⟨B', hB'⟩
    have hrun : uploadFiles ⟨b, List.replicate k none ++ [some e], 0⟩ folderField files
        = (Resp.fail 500 e.message, ⟨B', [], 0 + k + 1⟩) := by
      unfold uploadFiles
      simp [hnl, hlen0, hB']
    rw [hrun]
    refine ⟨rfl, ?_, rfl⟩
    show 0 + k + 1 = k + 1
    omega

/-- C10: creating a file and reading it back round-trips: for any
serialisation `stringify` and parser `parseJson` (the `JSON.stringify` /
`JSON.parse` builtins) and any content `c` with
`parseJson (stringify c) = c`, a fault-free `/create-file` reports 201
and a subsequent `/read-file` of the same folder and file name returns
exactly `c`. -/
theorem claim10_roundtrip (J : Type) (stringify : J → Str)
    (parseJson : Str → Except String J) (b : Bucket) (folder fileName : Str) (c : J)
    (hround : parseJson (stringify c) = .ok c) :
    (createFile stringify ⟨b, [], 0⟩ folder fileName c).1
        = Resp.msg 201 "File created successfully" ∧
    (readFile parseJson (createFile stringify ⟨b, [], 0⟩ folder fileName c).2
        folder fileName).1 = ReadResp.ok c := by
  have hcr : createFile stringify ⟨b, [], 0⟩ folder fileName c
      = (Resp.msg 201 "File created successfully",
         ⟨putObject b (joinKey folder fileName) (stringify c), [], 1⟩) := by
    unfold createFile
    simp [sendPut, popFault]
  rw [hcr]
  refine ⟨rfl, ?_⟩
  unfold readFile
  simp [sendGet, popFault, getObject_put_self, hround]

/- ------------------------------------------------------------------
   Witnesses: each hypothesis-bearing claim theorem evaluated at a
   concrete input.
   ------------------------------------------------------------------ -/

/-- Witness for C3 (amended) at the bucket `[⟨"a/f", "x"⟩]`, renaming
`"a"` to `"b"`. -/
theorem claim3_amended_witness :
    (keysOf [⟨str "a/f", str "x"⟩]).Nodup ∧
    listObjects [⟨str "a/f", str "x"⟩] (folderPfx (str "b")) = [] ∧
    lpre (folderPfx (str "a")) (folderPfx (str "b")) = false ∧
    lpre (folderPfx (str "b")) (folderPfx (str "a")) = false ∧
    listObjects [⟨str "a/f", str "x"⟩] (folderPfx (str "a")) ≠ [] ∧
    ((renameFolder ⟨[⟨str "a/f", str "x"⟩], [], 0⟩ (str "a") (str "b")).1
        = Resp.msg 200 "Folder renamed successfully" ∧
     (listObjects (renameFolder ⟨[⟨str "a/f", str "x"⟩], [], 0⟩
        (str "a") (str "b")).2.bucket (folderPfx (str "b"))).length
        = (listObjects [⟨str "a/f", str "x"⟩] (folderPfx (str "a"))).length ∧
     listObjects (renameFolder ⟨[⟨str "a/f", str "x"⟩], [], 0⟩
        (str "a") (str "b")).2.bucket (folderPfx (str "a")) = []) :=
  ⟨by decide, by decide, by decide, by decide, by decide,
   claim3_amended [⟨str "a/f", str "x"⟩] (str "a") (str "b")
     (by decide) (by decide) (by decide) (by decide) (by decide)⟩

/-- Witness for C4 (amended) at the bucket `[⟨"a/f", "x"⟩]`,
duplicating `"a"` to `"b"`. -/
theorem claim4_amended_witness :
    (keysOf [⟨str "a/f", str "x"⟩]).Nodup ∧
    listObjects [⟨str "a/f", str "x"⟩] (folderPfx (str "b")) = [] ∧
    lpre (folderPfx (str "a")) (folderPfx (str "b")) = false ∧
    lpre (folderPfx (str "b")) (folderPfx (str "a")) = false ∧
    listObjects [⟨str "a/f", str "x"⟩] (folderPfx (str "a")) ≠ [] ∧
    ((duplicateFolder ⟨[⟨str "a/f", str "x"⟩], [], 0⟩ (str "a") (str "b")).1
        = Resp.msg 201 "Folder duplicated successfully" ∧
     listObjects (duplicateFolder ⟨[⟨str "a/f", str "x"⟩], [], 0⟩
        (str "a") (str "b")).2.bucket (folderPfx (str "a"))
        = listObjects [⟨str "a/f", str "x"⟩] (folderPfx (str "a")) ∧
     (listObjects (duplicateFolder ⟨[⟨str "a/f", str "x"⟩], [], 0⟩
        (str "a") (str "b")).2.bucket (folderPfx (str "b"))).length
        = (listObjects [⟨str "a/f", str "x"⟩] (folderPfx (str "a"))).length) :=
  ⟨by decide, by decide, by decide, by decide, by decide,
   claim4_amended [⟨str "a/f", str "x"⟩] (str "a") (str "b")
     (by decide) (by decide) (by decide) (by decide) (by decide)⟩

/-- Witness for C5 on the listed key `"a/x"` under source folder `"a"`
and target folder `"c"`. -/
theorem claim5_witness :
    lpre (folderPfx (str "a")) (str "a/x") = true ∧
    newKeyOf (str "a") (str "c") (str "a/x")
      = folderPfx (str "c") ++ (str "a/x").drop (folderPfx (str "a")).length :=
  ⟨by decide, claim5_first_occurrence_only.1 (str "a") (str "c") (str "a/x") (by decide)⟩

/-- Witness for C6 on the empty bucket. -/
theorem claim6_witness :
    listObjects [] (folderPfx (str "a")) = [] ∧
    (duplicateFolder ⟨[], [], 0⟩ (str "a") (str "b")
        = (Resp.msg 404 "Source folder is empty or not found", ⟨[], [], 1⟩) ∧
     renameFolder ⟨[], [], 0⟩ (str "a") (str "b")
        = (Resp.msg 404 "Source folder is empty or not found", ⟨[], [], 1⟩)) :=
  ⟨by decide, claim6_not_found_no_mutation [] (str "a") (str "b") 0 (by decide)⟩

/-- Witness for C7: the empty-prefix 404 on the empty bucket, and the
bulk delete on a folder with one object. -/
theorem claim7_witness :
    listObjects ([] : Bucket) (folderPfx (str "a")) = [] ∧
    deleteFile ⟨[], [], 0⟩ (str "a") (str "*")
      = (Resp.msg 404 "No files found in the folder", ⟨[], [], 1⟩) ∧
    listObjects [⟨str "a/f", str "x"⟩] (folderPfx (str "a")) ≠ [] ∧
    (deleteFile ⟨[⟨str "a/f", str "x"⟩], [], 0⟩ (str "a") (str "*")
        = (Resp.msg 200 ("Deleted "
              ++ toString (listObjects [⟨str "a/f", str "x"⟩] (folderPfx (str "a"))).length
              ++ " files successfully"),
           ⟨delObjs [⟨str "a/f", str "x"⟩]
              ((listObjects [⟨str "a/f", str "x"⟩] (folderPfx (str "a"))).map Obj.key),
            [], 2⟩) ∧
     listObjects (delObjs [⟨str "a/f", str "x"⟩]
        ((listObjects [⟨str "a/f", str "x"⟩] (folderPfx (str "a"))).map Obj.key))
        (folderPfx (str "a")) = []) :=
  ⟨by decide, (claim7_wildcard_delete [] (str "a")).1 (by decide), by decide,
   (claim7_wildcard_delete [⟨str "a/f", str "x"⟩] (str "a")).2 (by decide)⟩

/-- Witness for C8: 51 identical files are rejected with the fixed 400
and no mutation; a single file is uploaded and readable under the
folder prefix. -/
theorem claim8_witness :
    50 < (List.replicate 51 (⟨str "f", str "x", str "m"⟩ : UFile)).length ∧
    uploadFiles ⟨[], [], 0⟩ (str "up") (List.replicate 51 ⟨str "f", str "x", str "m"⟩)
      = (Resp.fail 400 "Too many files. Maximum 50 files allowed.", ⟨[], [], 0⟩) ∧
    ([(⟨str "f", str "x", str "m"⟩ : UFile)].length ≤ 50
      ∧ [(⟨str "f", str "x", str "m"⟩ : UFile)] ≠ []) ∧
    (uploadFiles ⟨[], [], 0⟩ (str "up") [⟨str "f", str "x", str "m"⟩]).1
        = Resp.okUpload 201 "Files uploaded successfully" [str "f"] ∧
    getObject (uploadFiles ⟨[], [], 0⟩ (str "up") [⟨str "f", str "x", str "m"⟩]).2.bucket
        (joinKey (str "up") (str "f")) ≠ none :=
  ⟨by decide,
   claim8_upload_limit.1 ⟨[], [], 0⟩ (str "up")
     (List.replicate 51 ⟨str "f", str "x", str "m"⟩) (by decide),
   ⟨by decide, by decide⟩,
   (claim8_upload_limit.2 [] (str "up") [⟨str "f", str "x", str "m"⟩]
     (by decide) (by decide)).1,
   (claim8_upload_limit.2 [] (str "up") [⟨str "f", str "x", str "m"⟩]
     (by decide) (by decide)).2 ⟨str "f", str "x", str "m"⟩ (by decide)⟩

/-- Witness for C9 (amended): the delete-file exception in both
directions, an upload fan-out fault, mid-fan-out faults of duplicate
(first copy) and rename (first delete), a fault on the wildcard bulk
delete, a fault on the single delete after a successful existence
check, and a fault on the second upload put. -/
theorem claim9_amended_witness :
    ((str "f" : Str) ≠ str "*" ∧ ("X" : String) ≠ "NotFound") ∧
    deleteFile ⟨[], [some ⟨"X", "boom"⟩], 0⟩ (str "a") (str "f")
      = (Resp.fail 500 "boom", ⟨[], [], 1⟩) ∧
    deleteFile ⟨[], [some ⟨"NotFound", "boom"⟩], 0⟩ (str "a") (str "f")
      = (Resp.fail 404 "File not found", ⟨[], [], 1⟩) ∧
    uploadFiles ⟨[], [some ⟨"X", "boom"⟩], 0⟩ (str "up") [⟨str "f", str "x", str "m"⟩]
      = (Resp.fail 500 "boom", ⟨[], [], 1⟩) ∧
    (0 < (listObjects [⟨str "a/f", str "x"⟩] (folderPfx (str "a"))).length ∧
     (duplicateFolder ⟨[⟨str "a/f", str "x"⟩],
        none :: (List.replicate 0 none ++ [some ⟨"X", "boom"⟩]), 0⟩
        (str "a") (str "b")).1 = Resp.fail 500 "boom") ∧
    (1 < 2 * (listObjects [⟨str "a/f", str "x"⟩] (folderPfx (str "a"))).length ∧
     (renameFolder ⟨[⟨str "a/f", str "x"⟩],
        none :: (List.replicate 1 none ++ [some ⟨"X", "boom"⟩]), 0⟩
        (str "a") (str "b")).1 = Resp.fail 500 "boom") ∧
    (listObjects [⟨str "a/f", str "x"⟩] (folderPfx (str "a")) ≠ [] ∧
     deleteFile ⟨[⟨str "a/f", str "x"⟩], none :: [some ⟨"X", "boom"⟩], 0⟩
        (str "a") (str "*")
        = (Resp.fail 500 "boom", ⟨[⟨str "a/f", str "x"⟩], [], 2⟩)) ∧
    (getObject [⟨str "a/f", str "x"⟩] (joinKey (str "a") (str "f")) ≠ none ∧
     deleteFile ⟨[⟨str "a/f", str "x"⟩], none :: [some ⟨"X", "boom"⟩], 0⟩
        (str "a") (str "f")
        = (Resp.fail 500 "boom", ⟨[⟨str "a/f", str "x"⟩], [], 2⟩)) ∧
    (1 < ([⟨str "f", str "x", str "m"⟩, ⟨str "g", str "y", str "m"⟩] : List UFile).length ∧
     (uploadFiles ⟨[], List.replicate 1 none ++ [some ⟨"X", "boom"⟩], 0⟩ (str "up")
        [⟨str "f", str "x", str "m"⟩, ⟨str "g", str "y", str "m"⟩]).1
        = Resp.fail 500 "boom") := by
  obtain ⟨h1, h2, h3, h4, h5, h6, h7, h8, h9, h10, h11, h12, h13, h14, h15, h16⟩ :=
    claim9_amended
  refine ⟨⟨by decide, by decide⟩, ?_, ?_, ?_, ⟨by decide, ?_⟩, ⟨by decide, ?_⟩,
    ⟨by decide, ?_⟩, ⟨by decide, ?_⟩, ⟨by decide, ?_⟩⟩
  · exact (h5 [] [] (str "a") (str "f") ⟨"X", "boom"⟩ (by decide)).1 (by decide)
  · exact (h5 [] [] (str "a") (str "f") ⟨"NotFound", "boom"⟩ (by decide)).2 (by decide)
  · exact h11 [] (str "up") [⟨str "f", str "x", str "m"⟩] [] ⟨"X", "boom"⟩
      (by decide) (by decide)
  · exact (h12 [⟨str "a/f", str "x"⟩] (str "a") (str "b") ⟨"X", "boom"⟩ 0 (by decide)).1
  · exact (h13 [⟨str "a/f", str "x"⟩] (str "a") (str "b") ⟨"X", "boom"⟩ 1 (by decide)).1
  · exact h14 [⟨str "a/f", str "x"⟩] (str "a") ⟨"X", "boom"⟩ (by decide)
  · exact h15 [⟨str "a/f", str "x"⟩] (str "a") (str "f") ⟨"X", "boom"⟩
      (by decide) (by decide)
  · exact (h16 [] (str "up") [⟨str "f", str "x", str "m"⟩, ⟨str "g", str "y", str "m"⟩]
      ⟨"X", "boom"⟩ 1 (by decide) (by decide)).1

/-- Witness for C10 with the one-value codec sending every content to
the string `"0"`. -/
theorem claim10_witness :
    ((fun sjson : Str => if sjson = str "0" then (Except.ok 0 : Except String Nat)
        else .error "bad") ((fun _ : Nat => str "0") 0) = .ok 0) ∧
    ((createFile (fun _ : Nat => str "0") ⟨[], [], 0⟩ (str "d") (str "f") 0).1
        = Resp.msg 201 "File created successfully" ∧
     (readFile (fun sjson : Str => if sjson = str "0" then (Except.ok 0 : Except String Nat)
          else .error "bad")
        (createFile (fun _ : Nat => str "0") ⟨[], [], 0⟩ (str "d") (str "f") 0).2
        (str "d") (str "f")).1 = ReadResp.ok 0) :=
  ⟨by rfl,
   claim10_roundtrip Nat (fun _ : Nat => str "0")
     (fun sjson : Str => if sjson = str "0" then (Except.ok 0 : Except String Nat)
        else .error "bad")
     [] (str "d") (str "f") 0 (by rfl)⟩

end R2FM
